import Mathlib

/-!
Formal model of the remote-execution core of mos-integration-tests
(`mos_tests/environment/ssh.py`): the `SSHClient` transport session, its
authentication fallback, retry wrapper, command channels, privilege
escalation, multi-host fan-out, teardown, and file download.

Each Python function is shallowly embedded as a pure Lean function.
Interaction with the network / filesystem / paramiko library is modelled by
explicit environment parameters (e.g. which credentials an auth oracle
accepts, the exit code a remote returns, which paths exist), and side
effects are recorded as explicit event traces.
-/

/-! ## Authentication model (`SSHClient.connect`, ssh.py lines 152-173)

An authentication attempt is described by the keyword arguments passed to
`paramiko.SSHClient.connect` that matter for credential selection: the
optional private key (`pkey`) and the optional password. Private keys are
identified by opaque natural-number ids. The remote server is an oracle
`accepts : Attempt → Bool`; a rejected attempt raises
`paramiko.AuthenticationException`, which the key loop catches. -/

structure Attempt where
  pkey : Option Nat
  password : Option String
deriving DecidableEq, Repr

/-- Key-based attempt: `kwargs['pkey'] = private_key; kwargs['password'] = None`. -/
def keyAttempt (k : Nat) : Attempt :=
  { pkey := some k, password := none }

/-- Password fallback attempt: `base_kwargs` with no `pkey`. -/
def passwordAttempt (pw : Option String) : Attempt :=
  { pkey := none, password := pw }

/-- Embedding of `SSHClient.connect`: try each private key in list order with
the password cleared, falling back to a password attempt once the key list is
exhausted.  Returns the ordered trace of attempts made, together with
`some a` when attempt `a` was accepted, or `none` when the final password
attempt was also rejected (the exception propagates). -/
def connect (keys : List Nat) (pw : Option String) (accepts : Attempt → Bool) :
    List Attempt × Option Attempt :=
  match keys with
  | [] =>
    let a := passwordAttempt pw
    ([a], if accepts a then some a else none)
  | k :: rest =>
    let a := keyAttempt k
    if accepts a then ([a], some a)
    else
      let r := connect rest pw accepts
      (a :: r.1, r.2)

/-- Helper: if every key in the list is rejected, the attempt trace is all the
key attempts followed by the single password attempt. -/
theorem connect_all_keys_rejected (keys : List Nat) (pw : Option String)
    (accepts : Attempt → Bool)
    (hrej : ∀ k ∈ keys, accepts (keyAttempt k) = false) :
    (connect keys pw accepts).1 = keys.map keyAttempt ++ [passwordAttempt pw] := by
  induction keys with
  | nil => simp [connect]
  | cons k rest ih =>
    have hk : accepts (keyAttempt k) = false := hrej k (by simp)
    simp only [connect, hk, Bool.false_eq_true, if_false, List.map_cons, List.cons_append,
      List.cons.injEq, true_and]
    exact ih (fun k hkmem => hrej k (by simp [hkmem]))

/-- Helper: if the first `n` keys are rejected and key number `n` (0-based) is
accepted, `connect` stops at that key. -/
theorem connect_key_accepted (keys : List Nat) (pw : Option String)
    (accepts : Attempt → Bool) (n : Nat) (kn : Nat)
    (hrej : ∀ k ∈ keys.take n, accepts (keyAttempt k) = false)
    (hget : keys.get? n = some kn)
    (hacc : accepts (keyAttempt kn) = true) :
    connect keys pw accepts =
      ((keys.take (n + 1)).map keyAttempt, some (keyAttempt kn)) := by
  induction keys generalizing n with
  | nil => simp at hget
  | cons k rest ih =>
    cases n with
    | zero =>
      have hk : k = kn := by simpa using hget
      subst hk
      simp [connect, hacc]
    | succ m =>
      have hk : accepts (keyAttempt k) = false := hrej k (by simp)
      have hrest := ih m (fun x hx => hrej x (by simp [hx])) (by simpa using hget)
      simp [connect, hk, hrest]

/-- Claim C1: with a non-empty private-key list, `connect` attempts
authentication with each key in list order with the password cleared for
those attempts; if key number `n` (0-based) is accepted after the first `n`
are rejected, `connect` succeeds using that key and the trace contains no
password attempt; a password attempt happens only after every key is
rejected, or immediately when no keys are supplied. -/
theorem connect_key_order_and_password_fallback (keys : List Nat)
    (pw : Option String) (accepts : Attempt → Bool) :
    (∀ n kn, (∀ k ∈ keys.take n, accepts (keyAttempt k) = false) →
      keys.get? n = some kn → accepts (keyAttempt kn) = true →
      connect keys pw accepts =
        ((keys.take (n + 1)).map keyAttempt, some (keyAttempt kn)) ∧
      (∀ a ∈ (connect keys pw accepts).1, a.pkey ≠ none ∧ a.password = none)) ∧
    ((∀ k ∈ keys, accepts (keyAttempt k) = false) →
      (connect keys pw accepts).1 = keys.map keyAttempt ++ [passwordAttempt pw]) ∧
    (keys = [] → (connect keys pw accepts).1 = [passwordAttempt pw]) := by
  refine ⟨?_, ?_, ?_⟩
  · intro n kn hrej hget hacc
    have heq := connect_key_accepted keys pw accepts n kn hrej hget hacc
    refine ⟨heq, ?_⟩
    intro a ha
    rw [heq] at ha
    simp only [List.mem_map] at ha
    obtain ⟨k, _, hk⟩ := ha
    subst hk
    simp [keyAttempt]
  · intro hrej
    exact connect_all_keys_rejected keys pw accepts hrej
  · intro h
    subst h
    simp [connect]

/-- Witness for C1: three keys, the first two rejected, the third accepted. -/
theorem connect_key_order_and_password_fallback_witness :
    connect [10, 20, 30] (some "pw")
        (fun a => a == keyAttempt 30) =
      (([10, 20, 30].take 3).map keyAttempt, some (keyAttempt 30)) ∧
    (∀ a ∈ (connect [10, 20, 30] (some "pw")
        (fun a => a == keyAttempt 30)).1, a.pkey ≠ none ∧ a.password = none) :=
  (connect_key_order_and_password_fallback [10, 20, 30] (some "pw")
      (fun a => a == keyAttempt 30)).1 2 30
    (by decide) (by decide) (by decide)

/-! ## Retry wrapper (`retry`, ssh.py lines 27-44)

The decorator runs the wrapped function up to `count` times; a successful
call returns immediately, a failing call is followed by `time.sleep(delay)`.
When the loop exhausts all attempts the `for`-`else` branch logs a warning
with the last exception and re-raises it.  The wrapped function is modelled
as `f : Nat → Except E A` giving the outcome of the i-th call (0-based), and
the side effects (calls, sleeps, the warning) are recorded in a trace. -/

inductive RetryEvent where
  | attempt (i : Nat)
  | sleep (d : Nat)
  | warn
deriving DecidableEq, Repr

/-- Loop body of the `retry` decorator: `i` is the index of the next call,
the second argument the remaining iterations of `range(count)`, the third the
last exception seen (`none` before any call). -/
def retryAux {E A : Type} (delay : Nat) (f : Nat → Except E A) :
    Nat → Nat → Option E → List RetryEvent × Except (Option E) A
  | _, 0, last => ([RetryEvent.warn], Except.error last)
  | i, n + 1, _ =>
    match f i with
    | Except.ok a => ([RetryEvent.attempt i], Except.ok a)
    | Except.error e =>
      let r := retryAux delay f (i + 1) n (some e)
      (RetryEvent.attempt i :: RetryEvent.sleep delay :: r.1, r.2)

/-- Embedding of `retry(count, delay)` applied to a fallible operation. -/
def retryRun {E A : Type} (count delay : Nat) (f : Nat → Except E A) :
    List RetryEvent × Except (Option E) A :=
  retryAux delay f 0 count none

/-- Embedding of `SSHClient.reconnect` (ssh.py lines 175-183): the underlying
reconnect body (clear, fresh paramiko client, optional proxy, `connect()`) is
the environment `f`; the decorator is applied as `@retry(count=3, delay=3)`. -/
def reconnect {E : Type} (f : Nat → Except E Unit) :
    List RetryEvent × Except (Option E) Unit :=
  retryRun 3 3 f

/-- Claim C2: `reconnect` retries exactly 3 times with a 3-second delay: a
successful first attempt returns immediately with no further attempts; if the
first two attempts raise and the third succeeds, exactly 3 attempts are made
with a sleep between consecutive attempts; if all 3 raise, the last exception
is re-raised after a warning is logged. -/
theorem reconnect_retry_policy {E : Type} (f : Nat → Except E Unit) :
    (f 0 = Except.ok () →
      reconnect f = ([RetryEvent.attempt 0], Except.ok ())) ∧
    (∀ e0 e1, f 0 = Except.error e0 → f 1 = Except.error e1 →
      f 2 = Except.ok () →
      reconnect f =
        ([RetryEvent.attempt 0, RetryEvent.sleep 3, RetryEvent.attempt 1,
          RetryEvent.sleep 3, RetryEvent.attempt 2], Except.ok ())) ∧
    (∀ e0 e1 e2, f 0 = Except.error e0 → f 1 = Except.error e1 →
      f 2 = Except.error e2 →
      reconnect f =
        ([RetryEvent.attempt 0, RetryEvent.sleep 3, RetryEvent.attempt 1,
          RetryEvent.sleep 3, RetryEvent.attempt 2, RetryEvent.sleep 3,
          RetryEvent.warn], Except.error (some e2))) := by
  refine ⟨?_, ?_, ?_⟩
  · intro h0
    simp [reconnect, retryRun, retryAux, h0]
  · intro e0 e1 h0 h1 h2
    simp [reconnect, retryRun, retryAux, h0, h1, h2]
  · intro e0 e1 e2 h0 h1 h2
    simp [reconnect, retryRun, retryAux, h0, h1, h2]

/-- Witness for C2: first two attempts fail, the third succeeds. -/
theorem reconnect_retry_policy_witness :
    reconnect (fun i => if i < 2 then Except.error i else Except.ok ()) =
      ([RetryEvent.attempt 0, RetryEvent.sleep 3, RetryEvent.attempt 1,
        RetryEvent.sleep 3, RetryEvent.attempt 2], Except.ok ()) :=
  (reconnect_retry_policy (fun i => if i < 2 then Except.error i else Except.ok ())).2.1
    0 1 rfl rfl rfl

/-! ## Result and error model (`CommandResult`, `CalledProcessError`,
ssh.py lines 47-76)

`CommandResult` keeps the captured stdout/stderr line lists and the exit
code.  `CalledProcessError(command, returncode, output)` is raised with an
integer exit code by `check_call`/`check_stderr` and with a host→exit-code
dict by `execute_together`, so `returncode` is a type parameter here. -/

structure CommandResult where
  stdout : List String
  stderr : List String
  exit_code : Int
deriving DecidableEq, Repr

structure CalledProcessError (R : Type) where
  cmd : String
  returncode : R
  output : Option (List String) := none
deriving DecidableEq, Repr

/-- Embedding of `SSHClient.check_call` (ssh.py lines 185-190), taking the
`CommandResult` produced by `self.execute(command)` as environment. -/
def check_call (command : String) (ret : CommandResult) :
    Except (CalledProcessError Int) CommandResult :=
  if ret.exit_code ≠ 0 then
    Except.error
      { cmd := command, returncode := ret.exit_code,
        output := some (ret.stdout ++ ret.stderr) }
  else
    Except.ok ret

/-- Embedding of `SSHClient.check_stderr` (ssh.py lines 192-197). -/
def check_stderr (command : String) (ret : CommandResult) :
    Except (CalledProcessError Int) CommandResult :=
  match check_call command ret with
  | Except.error e => Except.error e
  | Except.ok r =>
    if r.stderr ≠ [] then
      Except.error
        { cmd := command, returncode := r.exit_code,
          output := some (r.stdout ++ r.stderr) }
    else
      Except.ok r

/-- Claim C4: `check_call` raises a `CalledProcessError` carrying the command,
the exit code, and stdout followed by stderr iff the exit code is non-zero,
and otherwise returns the result; `check_stderr` additionally raises the same
kind of error when stderr is non-empty even though the exit code is zero. -/
theorem check_call_check_stderr_spec (command : String) (ret : CommandResult) :
    ((∃ e, check_call command ret = Except.error e) ↔ ret.exit_code ≠ 0) ∧
    (ret.exit_code ≠ 0 →
      check_call command ret = Except.error
        { cmd := command, returncode := ret.exit_code,
          output := some (ret.stdout ++ ret.stderr) }) ∧
    (ret.exit_code = 0 → check_call command ret = Except.ok ret) ∧
    (ret.exit_code ≠ 0 → check_stderr command ret = check_call command ret) ∧
    (ret.exit_code = 0 → ret.stderr ≠ [] →
      check_stderr command ret = Except.error
        { cmd := command, returncode := ret.exit_code,
          output := some (ret.stdout ++ ret.stderr) }) ∧
    (ret.exit_code = 0 → ret.stderr = [] →
      check_stderr command ret = Except.ok ret) := by
  by_cases h : ret.exit_code = 0
  · by_cases hs : ret.stderr = []
    · simp [check_call, check_stderr, h, hs]
    · simp [check_call, check_stderr, h, hs]
  · simp [check_call, check_stderr, h]

/-- Witness for C4: a result with exit code 2 makes `check_call` fail with
the combined output attached. -/
theorem check_call_check_stderr_spec_witness :
    check_call "ls /nope" { stdout := ["a"], stderr := ["err"], exit_code := 2 } =
      Except.error
        { cmd := "ls /nope", returncode := 2, output := some ["a", "err"] } :=
  (check_call_check_stderr_spec "ls /nope"
      { stdout := ["a"], stderr := ["err"], exit_code := 2 }).2.1 (by decide)

/-! ## Command channel (`SSHClient.execute_async`, ssh.py lines 243-259)

A channel interaction is recorded as a trace of events: the `exec_command`
call and any writes/flushes on the channel's stdin file.  The session state
relevant here is the `sudo_mode` flag and the password. -/

inductive ChanEvent where
  | execCommand (cmd : String)
  | stdinWrite (s : String)
  | stdinFlush
deriving DecidableEq, Repr

/-- Character-level embedding of Python's `cmd.replace('"', '\\"')`: every
double-quote character is replaced by a backslash followed by a quote. -/
def escapeChars : List Char → List Char
  | [] => []
  | c :: rest =>
    if c = '"' then '\\' :: '"' :: escapeChars rest
    else c :: escapeChars rest

def escapeQuotes (s : String) : String :=
  String.mk (escapeChars s.data)

/-- Embedding of `'sudo -S bash -c "%s"' % cmd.replace('"', '\\"')`. -/
def sudoWrap (cmd : String) : String :=
  "sudo -S bash -c \"" ++ escapeQuotes cmd ++ "\""

/-- Every double quote in the escaped command text is immediately preceded by
a backslash. -/
theorem escapeChars_quotes_escaped (l : List Char) :
    ∀ i, (escapeChars l).get? i = some '"' →
      ∃ j, i = j + 1 ∧ (escapeChars l).get? j = some '\\' := by
  induction l with
  | nil =>
    intro i h
    simp [escapeChars] at h
  | cons c rest ih =>
    intro i h
    by_cases hc : c = '"'
    · subst hc
      simp only [escapeChars, if_pos rfl] at h ⊢
      match i with
      | 0 => simp at h
      | 1 => exact ⟨0, rfl, rfl⟩
      | Nat.succ (Nat.succ k) =>
        obtain ⟨j, hj, hget⟩ := ih k (by simpa using h)
        exact ⟨j + 2, by omega, by simpa using hget⟩
    · simp only [escapeChars, if_neg hc] at h ⊢
      match i with
      | 0 =>
        simp only [List.get?] at h
        exact absurd (Option.some.inj h) hc
      | Nat.succ k =>
        obtain ⟨j, hj, hget⟩ := ih k (by simpa using h)
        exact ⟨j + 1, by omega, by simpa using hget⟩

/-- Session state used by the command channel: the elevated-privilege flag
and the password written to satisfy the sudo prompt. -/
structure Session where
  sudo_mode : Bool
  password : String
deriving DecidableEq, Repr

/-- Embedding of `SSHClient.execute_async`: builds `cmd = command + "\n"`,
wraps it in the sudo wrapper when `sudo_mode` is set, issues it with
`exec_command`, and in sudo mode writes `password + "\n"` to stdin and
flushes, provided the stdout channel is not already closed.  Returns the
channel event trace. -/
def execute_async (s : Session) (command : String) (stdoutChannelClosed : Bool) :
    List ChanEvent :=
  let cmd := command ++ "\n"
  if s.sudo_mode then
    let wrapped := sudoWrap cmd
    ChanEvent.execCommand wrapped ::
      (if stdoutChannelClosed = false then
        [ChanEvent.stdinWrite (s.password ++ "\n"), ChanEvent.stdinFlush]
      else [])
  else
    [ChanEvent.execCommand cmd]

/-- Claim C5: in elevated mode the issued command is the sudo wrapper applied
to `command + "\n"` with every embedded double quote escaped, and (unless the
stdout channel is already closed) the password plus a newline is written to
stdin and flushed right after the command is issued; with the flag clear the
command is sent unwrapped. -/
theorem execute_async_sudo_spec (s : Session) (command : String)
    (stdoutChannelClosed : Bool) :
    (s.sudo_mode = true → stdoutChannelClosed = false →
      execute_async s command stdoutChannelClosed =
        [ChanEvent.execCommand (sudoWrap (command ++ "\n")),
         ChanEvent.stdinWrite (s.password ++ "\n"), ChanEvent.stdinFlush]) ∧
    (s.sudo_mode = true → stdoutChannelClosed = true →
      execute_async s command stdoutChannelClosed =
        [ChanEvent.execCommand (sudoWrap (command ++ "\n"))]) ∧
    (s.sudo_mode = false →
      execute_async s command stdoutChannelClosed =
        [ChanEvent.execCommand (command ++ "\n")]) ∧
    (∀ i, (escapeQuotes (command ++ "\n")).data.get? i = some '"' →
      ∃ j, i = j + 1 ∧
        (escapeQuotes (command ++ "\n")).data.get? j = some '\\') := by
  refine ⟨?_, ?_, ?_, ?_⟩
  · intro hm hc
    simp [execute_async, hm, hc]
  · intro hm hc
    simp [execute_async, hm, hc]
  · intro hm
    simp [execute_async, hm]
  · intro i h
    exact escapeChars_quotes_escaped (command ++ "\n").data i h

/-- Witness for C5: a sudo-mode session issuing `echo "hi"` with the stdout
channel open. -/
theorem execute_async_sudo_spec_witness :
    execute_async { sudo_mode := true, password := "secret" } "echo \"hi\"" false =
      [ChanEvent.execCommand (sudoWrap ("echo \"hi\"" ++ "\n")),
       ChanEvent.stdinWrite ("secret" ++ "\n"), ChanEvent.stdinFlush] :=
  (execute_async_sudo_spec { sudo_mode := true, password := "secret" }
      "echo \"hi\"" false).1 rfl rfl

/-! ## Elevated-mode guard (`SSHClient.get_sudo`, ssh.py lines 91-99)

The context manager sets `ssh.sudo_mode = True` in `__enter__` and resets it
to `False` in `__exit__`; `__exit__` runs on both the normal and the
exceptional exit path of the `with` block, and returns a falsy value so an
exception keeps propagating. -/

def get_sudo_enter (s : Session) : Session :=
  { s with sudo_mode := true }

def get_sudo_exit (s : Session) : Session :=
  { s with sudo_mode := false }

/-- Embedding of `with ssh.sudo: body`: the body receives the session with
the flag set, runs to either a value or an exception, and `__exit__` clears
the flag on whichever session state the body left behind. -/
def with_get_sudo {E A : Type} (s : Session)
    (body : Session → Except E A × Session) : Except E A × Session :=
  let r := body (get_sudo_enter s)
  (r.1, get_sudo_exit r.2)

/-- Claim C6: the guard sets the elevated-privilege flag on scope entry and
clears it on scope exit regardless of how the scope is exited: the body runs
with the flag set, and after the scope ends — whether the body returned
normally or raised — the flag is cleared. -/
theorem get_sudo_scope_spec {E A : Type} (s : Session)
    (body : Session → Except E A × Session) :
    (get_sudo_enter s).sudo_mode = true ∧
    (with_get_sudo s body).2.sudo_mode = false ∧
    (∀ a s2, body (get_sudo_enter s) = (Except.ok a, s2) →
      (with_get_sudo s body).2.sudo_mode = false) ∧
    (∀ e s2, body (get_sudo_enter s) = (Except.error e, s2) →
      (with_get_sudo s body).2.sudo_mode = false) := by
  refine ⟨rfl, rfl, ?_, ?_⟩
  · intro a s2 _
    rfl
  · intro e s2 _
    rfl

/-- Witness for C6: a body that raises inside the scope still leaves the flag
cleared. -/
theorem get_sudo_scope_spec_witness :
    (with_get_sudo (E := Unit) (A := Unit) { sudo_mode := false, password := "p" }
      (fun s1 => (Except.error (), s1))).2.sudo_mode = false :=
  (get_sudo_scope_spec { sudo_mode := false, password := "p" }
      (fun s1 => (Except.error (), s1))).2.2.2 ()
    (get_sudo_enter { sudo_mode := false, password := "p" }) rfl

/-! ## Multi-host fan-out (`SSHClient.execute_together`, ssh.py lines 199-215)

Each remote is a connected session with a host name and its own `sudo_mode`
flag.  For every remote a channel is opened and the (per-session wrapped)
command is issued; afterwards every channel's exit status is collected and
the non-zero ones are stored in the dict `errors[remote.host] = ret`.  The
dict is modelled as an insertion-ordered association list with Python's
update-in-place semantics.  The exit code each remote returns is an
environment `exitCode : Remote → Int`; stdin is never written on this path. -/

structure Remote where
  host : String
  sudo_mode : Bool
deriving DecidableEq, Repr

/-- Python dict assignment `d[k] = v` on an insertion-ordered association
list: an existing key keeps its position and gets the new value, a new key is
appended. -/
def dictSet (d : List (String × Int)) (k : String) (v : Int) :
    List (String × Int) :=
  if d.any (fun p => p.1 = k) then
    d.map (fun p => if p.1 = k then (k, v) else p)
  else
    d ++ [(k, v)]

/-- Embedding of `SSHClient.execute_together`: returns the per-remote channel
traces (first loop) and either success or a `CalledProcessError` whose
`returncode` is the host→exit-code dict (second loop). -/
def execute_together (remotes : List Remote) (command : String)
    (exitCode : Remote → Int) :
    List (Remote × List ChanEvent) ×
      Except (CalledProcessError (List (String × Int))) Unit :=
  let futures := remotes.map (fun r =>
    let cmd := command ++ "\n"
    let cmd2 := if r.sudo_mode then sudoWrap cmd else cmd
    (r, [ChanEvent.execCommand cmd2]))
  let errors := remotes.foldl (fun errs r =>
    if exitCode r ≠ 0 then dictSet errs r.host (exitCode r) else errs) []
  (futures,
    if errors = [] then Except.ok ()
    else Except.error { cmd := command, returncode := errors })

/-- Helper: with pairwise-distinct hosts the error dict is exactly the
non-zero remotes, in order, mapped to their exit codes. -/
theorem foldl_dictSet_errors (exitCode : Remote → Int) :
    ∀ (remotes : List Remote) (acc : List (String × Int)),
      (∀ r ∈ remotes, ∀ p ∈ acc, p.1 ≠ r.host) →
      (remotes.map Remote.host).Nodup →
      remotes.foldl (fun errs r =>
          if exitCode r ≠ 0 then dictSet errs r.host (exitCode r) else errs) acc =
        acc ++ (remotes.filter (fun r => exitCode r ≠ 0)).map
          (fun r => (r.host, exitCode r)) := by
  intro remotes
  induction remotes with
  | nil => intro acc _ _; simp
  | cons r rest ih =>
    intro acc hacc hnd
    simp only [List.map_cons, List.nodup_cons] at hnd
    by_cases hr : exitCode r = 0
    · simp only [List.foldl_cons, hr, ne_eq, not_true_eq_false, if_false,
        List.filter_cons, decide_not]
      rw [ih acc (fun x hx p hp => hacc x (by simp [hx]) p hp) hnd.2]
      simp [hr]
    · have hnew : (acc.any (fun p => p.1 = r.host)) = false := by
        rw [List.any_eq_false]
        intro p hp
        simpa using hacc r (by simp) p hp
      simp only [List.foldl_cons, hr, ne_eq, not_false_eq_true, if_true,
        List.filter_cons, decide_not]
      rw [dictSet, hnew]
      simp only [Bool.false_eq_true, if_false]
      rw [ih (acc ++ [(r.host, exitCode r)]) ?_ hnd.2]
      · simp [hr]
      · intro x hx p hp
        rcases List.mem_append.mp hp with hp | hp
        · exact hacc x (by simp [hx]) p hp
        · have hpx : p = (r.host, exitCode r) := by simpa using hp
          subst hpx
          intro hcontra
          exact hnd.1 (by
            rw [show r.host = x.host from hcontra]
            exact List.mem_map_of_mem Remote.host hx)

/-- Claim C3: with pairwise-distinct hosts, `execute_together` fails iff some
remote's exit code is non-zero; the error then carries the command and maps
exactly the hosts with non-zero exit codes to those codes, hosts that exited
zero being absent; when every remote exits zero the call returns normally. -/
theorem execute_together_failure_spec (remotes : List Remote) (command : String)
    (exitCode : Remote → Int)
    (hnd : (remotes.map Remote.host).Nodup) :
    ((∃ e, (execute_together remotes command exitCode).2 = Except.error e) ↔
      ∃ r ∈ remotes, exitCode r ≠ 0) ∧
    (∀ e, (execute_together remotes command exitCode).2 = Except.error e →
      e.cmd = command ∧
      e.returncode = (remotes.filter (fun r => exitCode r ≠ 0)).map
        (fun r => (r.host, exitCode r)) ∧
      (∀ r ∈ remotes, exitCode r = 0 →
        ∀ p ∈ e.returncode, p.1 ≠ r.host)) ∧
    ((∀ r ∈ remotes, exitCode r = 0) →
      (execute_together remotes command exitCode).2 = Except.ok ()) := by
  have herrs := foldl_dictSet_errors exitCode remotes [] (by simp) hnd
  simp only [List.nil_append] at herrs
  have hmain :
      (execute_together remotes command exitCode).2 =
        if (remotes.filter (fun r => exitCode r ≠ 0)).map
            (fun r => (r.host, exitCode r)) = [] then Except.ok ()
        else Except.error
          { cmd := command,
            returncode := (remotes.filter (fun r => exitCode r ≠ 0)).map
              (fun r => (r.host, exitCode r)) } := by
    simp only [execute_together, herrs]
  refine ⟨?_, ?_, ?_⟩
  · constructor
    · rintro ⟨e, he⟩
      rw [hmain] at he
      by_contra hall
      push_neg at hall
      have hfil : remotes.filter (fun r => exitCode r ≠ 0) = [] := by
        rw [List.filter_eq_nil]
        intro r hr
        simp [hall r hr]
      rw [hfil] at he
      simp at he
    · rintro ⟨r, hr, hne⟩
      rw [hmain]
      have hfil : r ∈ remotes.filter (fun r => exitCode r ≠ 0) := by
        rw [List.mem_filter]
        exact ⟨hr, by simpa using hne⟩
      have : (remotes.filter (fun r => exitCode r ≠ 0)).map
          (fun r => (r.host, exitCode r)) ≠ [] := by
        simp only [ne_eq, List.map_eq_nil]
        intro hcontra
        rw [hcontra] at hfil
        simp at hfil
      simp only [this, if_false]
      exact ⟨_, rfl⟩
  · intro e he
    rw [hmain] at he
    by_cases hz : (remotes.filter (fun r => exitCode r ≠ 0)).map
        (fun r => (r.host, exitCode r)) = []
    · rw [hz] at he; simp at he
    · simp only [hz, if_false, Except.error.injEq] at he
      subst he
      refine ⟨rfl, rfl, ?_⟩
      intro r hr hrz p hp
      simp only [List.mem_map, List.mem_filter] at hp
      obtain ⟨x, ⟨hxmem, hxne⟩, hxp⟩ := hp
      subst hxp
      simp only [ne_eq]
      intro hhost
      have hx : x = r := List.inj_on_of_nodup_map hnd hxmem hr hhost
      subst hx
      simp [hrz] at hxne
  · intro hall
    rw [hmain]
    have hfil : remotes.filter (fun r => exitCode r ≠ 0) = [] := by
      rw [List.filter_eq_nil_iff]
      intro r hr
      simp [hall r hr]
    rw [hfil]
    simp

/-- Witness for C3: hosts A, B, C with exit codes 0, 1, 0 yield a failure
whose mapping is exactly B to 1. -/
theorem execute_together_failure_spec_witness :
    ∃ e, (execute_together
        [{ host := "A", sudo_mode := false }, { host := "B", sudo_mode := false },
         { host := "C", sudo_mode := false }] "true"
        (fun r => if r.host = "B" then 1 else 0)).2 = Except.error e ∧
      e.cmd = "true" ∧ e.returncode = [("B", 1)] := by
  have hrun :
      (execute_together
          [{ host := "A", sudo_mode := false }, { host := "B", sudo_mode := false },
           { host := "C", sudo_mode := false }] "true"
          (fun r => if r.host = "B" then 1 else 0)).2 =
        Except.error { cmd := "true", returncode := [("B", 1)] } := rfl
  have h := (execute_together_failure_spec
      [{ host := "A", sudo_mode := false }, { host := "B", sudo_mode := false },
       { host := "C", sudo_mode := false }] "true"
      (fun r => if r.host = "B" then 1 else 0) (by decide)).2.1
      { cmd := "true", returncode := [("B", 1)] } hrun
  exact ⟨_, hrun, h.1, h.2.1.trans (by decide)⟩

/-- Claim C10: for a fan-out remote whose elevated-privilege flag is set,
`execute_together` issues the same sudo wrapper (double quotes escaped) as
`execute_async`, but its channel trace contains no stdin write — unlike the
single-session `execute_async` path, which does write the password. -/
theorem execute_together_no_password_write (remotes : List Remote)
    (command : String) (exitCode : Remote → Int) :
    (∀ p ∈ (execute_together remotes command exitCode).1,
      (p.1.sudo_mode = true →
        p.2 = [ChanEvent.execCommand (sudoWrap (command ++ "\n"))]) ∧
      (∀ ev ∈ p.2, ∀ s, ev ≠ ChanEvent.stdinWrite s)) ∧
    (∀ s : Session, s.sudo_mode = true →
      ChanEvent.stdinWrite (s.password ++ "\n") ∈ execute_async s command false) := by
  constructor
  · intro p hp
    simp only [execute_together, List.mem_map] at hp
    obtain ⟨r, _, hrp⟩ := hp
    subst hrp
    constructor
    · intro hmode
      have hm : r.sudo_mode = true := hmode
      simp [hm]
    · intro ev hev s
      by_cases hmode : r.sudo_mode
      · simp only [hmode, if_true] at hev
        simp only [List.mem_singleton] at hev
        subst hev
        simp
      · simp only [hmode, if_false] at hev
        simp only [List.mem_singleton] at hev
        subst hev
        simp
  · intro s hmode
    simp [execute_async, hmode]

/-- Witness for C10: one sudo-mode remote gets the wrapped command and no
stdin write, while a sudo-mode `execute_async` session does write the
password. -/
theorem execute_together_no_password_write_witness :
    (({ host := "A", sudo_mode := true } : Remote),
        [ChanEvent.execCommand (sudoWrap ("id" ++ "\n"))]).2 =
      [ChanEvent.execCommand (sudoWrap ("id" ++ "\n"))] ∧
    ChanEvent.stdinWrite ("pw" ++ "\n") ∈
      execute_async { sudo_mode := true, password := "pw" } "id" false :=
  ⟨(execute_together_no_password_write
        [{ host := "A", sudo_mode := true }] "id" (fun _ => 0)).1
      ({ host := "A", sudo_mode := true },
        [ChanEvent.execCommand (sudoWrap ("id" ++ "\n"))]) (by decide)
      |>.1 rfl,
    (execute_together_no_password_write
        [{ host := "A", sudo_mode := true }] "id" (fun _ => 0)).2
      { sudo_mode := true, password := "pw" } rfl⟩

/-! ## Teardown (`SSHClient.clear`, ssh.py lines 119-136)

`clear` attempts to close, in order, the sftp sub-channel, the ssh
connection, and the proxy process, skipping handles that are `None`; each
close is wrapped in `try/except Exception: logger.exception(...)`, so a
failing close is logged and never propagates. Which handles are open and
which closes fail are environment functions; the observable behaviour is the
event trace.  `clear` does not reset the handles to `None`, so a second call
repeats the same attempts. -/

inductive Res where
  | sftp
  | ssh
  | proxy
deriving DecidableEq, Repr

inductive ClearEvent where
  | closeAttempt (r : Res)
  | logFail (r : Res)
deriving DecidableEq, Repr

/-- One `if handle is not None: try: handle.close() except: log` block. -/
def clearOne (isOpen : Bool) (closeFails : Bool) (r : Res) : List ClearEvent :=
  if isOpen then
    ClearEvent.closeAttempt r ::
      (if closeFails then [ClearEvent.logFail r] else [])
  else
    []

/-- Embedding of `SSHClient.clear`: a total function — every exception from a
close call is caught inside, so teardown itself never raises. -/
def clear (opened : Res → Bool) (closeFails : Res → Bool) : List ClearEvent :=
  clearOne (opened Res.sftp) (closeFails Res.sftp) Res.sftp ++
    clearOne (opened Res.ssh) (closeFails Res.ssh) Res.ssh ++
    clearOne (opened Res.proxy) (closeFails Res.proxy) Res.proxy

/-- Claim C7: teardown never raises (it is a total trace-producing function
whose close failures are recorded as log events); it attempts to close
exactly the opened resources, in the order sftp, ssh, proxy, regardless of
which closes fail — so an earlier failing close never prevents a later close
attempt — and running it twice in a row just repeats the same attempts,
again without raising. -/
theorem clear_teardown_spec (opened closeFails : Res → Bool) :
    ((clear opened closeFails).filterMap
        (fun e => match e with
          | ClearEvent.closeAttempt r => some r
          | ClearEvent.logFail _ => none) =
      [Res.sftp, Res.ssh, Res.proxy].filter (fun r => opened r)) ∧
    (∀ r, opened r = true →
      ClearEvent.closeAttempt r ∈ clear opened closeFails) ∧
    ((clear opened closeFails ++ clear opened closeFails).filterMap
        (fun e => match e with
          | ClearEvent.closeAttempt r => some r
          | ClearEvent.logFail _ => none) =
      ([Res.sftp, Res.ssh, Res.proxy].filter (fun r => opened r)) ++
        ([Res.sftp, Res.ssh, Res.proxy].filter (fun r => opened r))) := by
  have hfil : (clear opened closeFails).filterMap
      (fun e => match e with
        | ClearEvent.closeAttempt r => some r
        | ClearEvent.logFail _ => none) =
      [Res.sftp, Res.ssh, Res.proxy].filter (fun r => opened r) := by
    cases h1 : opened Res.sftp <;> cases h2 : opened Res.ssh <;>
      cases h3 : opened Res.proxy <;>
      cases g1 : closeFails Res.sftp <;> cases g2 : closeFails Res.ssh <;>
      cases g3 : closeFails Res.proxy <;>
      simp [clear, clearOne, h1, h2, h3, g1, g2, g3]
  refine ⟨hfil, ?_, ?_⟩
  · intro r hr
    cases r <;> simp [clear, clearOne, hr]
  · rw [List.filterMap_append, hfil]

/-- Witness for C7: with only the ssh handle open and its close failing, the
close attempt still happens (and the sftp/proxy handles are skipped). -/
theorem clear_teardown_spec_witness :
    ClearEvent.closeAttempt Res.ssh ∈
      clear (fun r => r == Res.ssh) (fun _ => true) :=
  (clear_teardown_spec (fun r => r == Res.ssh) (fun _ => true)).2.1
    Res.ssh rfl

/-! ## Blocking execution (`SSHClient.execute`, ssh.py lines 217-241)

`execute` drains stdout line by line, then stderr, then collects the exit
status with `recv_exit_status()`, then closes stdin, stdout, stderr and the
channel, in that order, as straight-line code with no `try/finally`.  A
stream is modelled as its yielded lines plus a flag saying whether iterating
it raises after the last yielded line (e.g. on a dropped connection); when a
stream raises, the exception propagates out of `execute` and the remaining
statements — including every close call — do not run. -/

inductive ExecEvent where
  | openChannel
  | readStdout (l : String)
  | readStderr (l : String)
  | recvExitStatus (c : Int)
  | closeStdin
  | closeStdout
  | closeStderr
  | closeChan
deriving DecidableEq, Repr

/-- A remote stream: the lines iteration yields, and whether iterating raises
after yielding them. -/
structure RemoteStream where
  lines : List String
  failsAfter : Bool
deriving DecidableEq, Repr

/-- Embedding of `SSHClient.execute`: event trace plus either the
`CommandResult` or the propagated streaming exception. -/
def execute (stdout stderr : RemoteStream) (exitStatus : Int) :
    List ExecEvent × Except Unit CommandResult :=
  let ev1 := ExecEvent.openChannel :: stdout.lines.map ExecEvent.readStdout
  if stdout.failsAfter then (ev1, Except.error ())
  else
    let ev2 := ev1 ++ stderr.lines.map ExecEvent.readStderr
    if stderr.failsAfter then (ev2, Except.error ())
    else
      (ev2 ++ [ExecEvent.recvExitStatus exitStatus, ExecEvent.closeStdin,
        ExecEvent.closeStdout, ExecEvent.closeStderr, ExecEvent.closeChan],
       Except.ok { stdout := stdout.lines, stderr := stderr.lines,
                   exit_code := exitStatus })

/-- Counterexample to C8 as stated: when iterating stdout raises after one
line, `execute` propagates the exception and the channel (and the three
stream handles) are never closed — the Closed state is not reached
unconditionally. -/
theorem execute_close_not_unconditional :
    (execute { lines := ["x"], failsAfter := true }
        { lines := [], failsAfter := false } 0).2 = Except.error () ∧
    ExecEvent.closeChan ∉
      (execute { lines := ["x"], failsAfter := true }
        { lines := [], failsAfter := false } 0).1 ∧
    ExecEvent.closeStdin ∉
      (execute { lines := ["x"], failsAfter := true }
        { lines := [], failsAfter := false } 0).1 := by
  refine ⟨rfl, ?_, ?_⟩ <;> decide

/-- Claim C8 (amended): on an invocation whose streams drain without raising,
`execute` follows Idle → Channel-Open → Streaming → Exited → Closed: the
exit status is collected only after both streams are fully drained, and the
stream handles and channel are closed, in order, after the exit status; but
when iterating a stream raises, the exception propagates and none of the
close calls run (there is no scoped per-command cleanup). -/
theorem execute_state_machine (stdout stderr : RemoteStream) (exitStatus : Int) :
    (stdout.failsAfter = false → stderr.failsAfter = false →
      execute stdout stderr exitStatus =
        (ExecEvent.openChannel :: stdout.lines.map ExecEvent.readStdout ++
          stderr.lines.map ExecEvent.readStderr ++
          [ExecEvent.recvExitStatus exitStatus, ExecEvent.closeStdin,
           ExecEvent.closeStdout, ExecEvent.closeStderr, ExecEvent.closeChan],
         Except.ok { stdout := stdout.lines, stderr := stderr.lines,
                     exit_code := exitStatus })) ∧
    (stdout.failsAfter = true →
      execute stdout stderr exitStatus =
        (ExecEvent.openChannel :: stdout.lines.map ExecEvent.readStdout,
         Except.error ())) ∧
    (stdout.failsAfter = false → stderr.failsAfter = true →
      execute stdout stderr exitStatus =
        (ExecEvent.openChannel :: stdout.lines.map ExecEvent.readStdout ++
          stderr.lines.map ExecEvent.readStderr,
         Except.error ())) ∧
    (stdout.failsAfter = true ∨ stderr.failsAfter = true →
      ExecEvent.closeChan ∉ (execute stdout stderr exitStatus).1) := by
  refine ⟨?_, ?_, ?_, ?_⟩
  · intro h1 h2
    simp [execute, h1, h2]
  · intro h1
    simp [execute, h1]
  · intro h1 h2
    simp [execute, h1, h2]
  · intro hor
    rcases hor with h | h
    · simp only [execute, h, if_true]
      intro hmem
      rcases List.mem_cons.mp hmem with hmem | hmem
      · exact ExecEvent.noConfusion hmem
      · simp only [List.mem_map] at hmem
        obtain ⟨l, _, hl⟩ := hmem
        exact ExecEvent.noConfusion hl
    · by_cases h0 : stdout.failsAfter
      · simp only [execute, h0, if_true]
        intro hmem
        rcases List.mem_cons.mp hmem with hmem | hmem
        · exact ExecEvent.noConfusion hmem
        · simp only [List.mem_map] at hmem
          obtain ⟨l, _, hl⟩ := hmem
          exact ExecEvent.noConfusion hl
      · simp only [execute, h0, Bool.false_eq_true, if_false, h, if_true]
        intro hmem
        rcases List.mem_append.mp hmem with hmem | hmem
        · rcases List.mem_cons.mp hmem with hmem | hmem
          · exact ExecEvent.noConfusion hmem
          · simp only [List.mem_map] at hmem
            obtain ⟨l, _, hl⟩ := hmem
            exact ExecEvent.noConfusion hl
        · simp only [List.mem_map] at hmem
          obtain ⟨l, _, hl⟩ := hmem
          exact ExecEvent.noConfusion hl

/-- Witness for amended C8: one stdout line, one stderr line, both streams
drain cleanly, exit status 7. -/
theorem execute_state_machine_witness :
    execute { lines := ["out"], failsAfter := false }
        { lines := ["err"], failsAfter := false } 7 =
      (ExecEvent.openChannel :: (["out"].map ExecEvent.readStdout) ++
        (["err"].map ExecEvent.readStderr) ++
        [ExecEvent.recvExitStatus 7, ExecEvent.closeStdin,
         ExecEvent.closeStdout, ExecEvent.closeStderr, ExecEvent.closeChan],
       Except.ok { stdout := ["out"], stderr := ["err"], exit_code := 7 }) :=
  (execute_state_machine { lines := ["out"], failsAfter := false }
      { lines := ["err"], failsAfter := false } 7).1 rfl rfl

/-! ## File download (`SSHClient.download`, ssh.py lines 300-320)

The local and remote filesystems are environment predicates.  `download`
first redirects a local directory target to `posixpath.join(target,
os.path.basename(destination))`, then copies only when the remote path is
not a directory and exists, and finally returns `os.path.exists(target)`.
A performed copy makes the local target exist; otherwise the local
filesystem is unchanged. -/

/-- Embedding of POSIX `os.path.basename`: everything after the last
slash. -/
def basename (p : String) : String :=
  String.mk (p.data.foldl (fun acc c => if c = '/' then [] else acc ++ [c]) [])

/-- Embedding of `posixpath.join` on two components: an absolute second
component wins, otherwise a separator is inserted unless the first component
is empty or already ends in one. -/
def posixJoin (a b : String) : String :=
  if b.data.head? = some '/' then b
  else if a.data = [] ∨ a.data.getLast? = some '/' then a ++ b
  else a ++ "/" ++ b

/-- Outcome of one `download` call: the copy performed (source and local
target), if any, and the returned boolean. -/
structure DownloadRun where
  copied : Option (String × String)
  result : Bool
deriving DecidableEq, Repr

/-- Embedding of `SSHClient.download destination target`. -/
def download (remoteIsdir remoteExistsP localIsdir localExistsP : String → Bool)
    (destination target : String) : DownloadRun :=
  let target1 :=
    if localIsdir target then posixJoin target (basename destination)
    else target
  if remoteIsdir destination = false then
    if remoteExistsP destination then
      { copied := some (destination, target1), result := true }
    else
      { copied := none, result := localExistsP target1 }
  else
    { copied := none, result := localExistsP target1 }

/-- Claim C9: `download` appends the remote base name to a local directory
target; it copies the remote file to the local target exactly when the
remote path exists and is not a directory; it performs no copy when the
remote path is a directory or missing; and it always returns whether the
local target path exists after the attempt (true after a copy, the local
filesystem's prior answer otherwise). -/
theorem download_spec (remoteIsdir remoteExistsP localIsdir localExistsP :
    String → Bool) (destination target : String) :
    ((download remoteIsdir remoteExistsP localIsdir localExistsP
        destination target).copied.isSome ↔
      (remoteIsdir destination = false ∧ remoteExistsP destination = true)) ∧
    (∀ p q, (download remoteIsdir remoteExistsP localIsdir localExistsP
        destination target).copied = some (p, q) →
      p = destination ∧
      q = (if localIsdir target then posixJoin target (basename destination)
           else target)) ∧
    ((download remoteIsdir remoteExistsP localIsdir localExistsP
        destination target).copied.isSome →
      (download remoteIsdir remoteExistsP localIsdir localExistsP
        destination target).result = true) ∧
    ((download remoteIsdir remoteExistsP localIsdir localExistsP
        destination target).copied = none →
      (download remoteIsdir remoteExistsP localIsdir localExistsP
        destination target).result =
        localExistsP (if localIsdir target then
          posixJoin target (basename destination) else target)) := by
  by_cases h1 : remoteIsdir destination = false
  · by_cases h2 : remoteExistsP destination = true
    · refine ⟨?_, ?_, ?_, ?_⟩ <;> simp [download, h1, h2]
    · have h2f : remoteExistsP destination = false := by
        cases h : remoteExistsP destination
        · rfl
        · exact absurd h h2
      refine ⟨?_, ?_, ?_, ?_⟩ <;> simp [download, h1, h2f]
  · have h1t : remoteIsdir destination = true := by
      cases h : remoteIsdir destination
      · exact absurd h h1
      · rfl
    refine ⟨?_, ?_, ?_, ?_⟩ <;> simp [download, h1t]

/-- Witness for C9: downloading the remote file `/var/log/sys.log` into the
local directory `/tmp` copies it to `/tmp/sys.log`. -/
theorem download_spec_witness :
    (download (fun _ => false) (fun _ => true) (fun p => p == "/tmp")
        (fun _ => false) "/var/log/sys.log" "/tmp").copied =
        some ("/var/log/sys.log", "/tmp/sys.log") ∧
    (download (fun _ => false) (fun _ => true) (fun p => p == "/tmp")
        (fun _ => false) "/var/log/sys.log" "/tmp").result = true := by
  have hrun : (download (fun _ => false) (fun _ => true) (fun p => p == "/tmp")
      (fun _ => false) "/var/log/sys.log" "/tmp").copied =
      some ("/var/log/sys.log", "/tmp/sys.log") := by decide
  have hres := (download_spec (fun _ => false) (fun _ => true)
      (fun p => p == "/tmp") (fun _ => false) "/var/log/sys.log" "/tmp").2.2.1
    (by rw [hrun]; rfl)
  exact ⟨hrun, hres⟩
